import Mathlib

/-!
Shallow embedding of the auto-trading-bot core engine
(`src/trading_bot.py`, `src/data_manager.py`) for checking the
natural-language specification against the code.

Prices, amounts and rates are modelled as exact rationals (`ℚ`); Python
dictionaries are modelled as association lists with dictionary-style
`lookupKey`/`setKey`/`delKey` semantics; fallible external calls (price
fetch, order placement, candle fetch) are modelled as `Option`/`Bool`
inputs supplied by the environment context of each evaluation.
-/

namespace AutoBot

/-! ## Association-list dictionaries -/

/-- Dictionary lookup on an association list (first binding wins, matching
Python dict semantics where keys are unique). -/
def lookupKey {α : Type} (k : String) : List (String × α) → Option α
  | [] => none
  | p :: ps => if p.1 = k then some p.2 else lookupKey k ps

/-- Dictionary key deletion: Python `del d[k]` (total: absent key deletes
nothing; the embedded code only deletes keys it has just looked up). -/
def delKey {α : Type} (k : String) (l : List (String × α)) : List (String × α) :=
  l.filter (fun p => decide (p.1 ≠ k))

/-- Dictionary assignment `d[k] = v`: the new binding shadows and replaces
any previous binding of `k`, all other keys keep their values. -/
def setKey {α : Type} (k : String) (v : α) (l : List (String × α)) : List (String × α) :=
  (k, v) :: delKey k l

theorem lookupKey_delKey_self {α : Type} (k : String) (l : List (String × α)) :
    lookupKey k (delKey k l) = none := by
  induction l with
  | nil => rfl
  | cons p ps ih =>
    by_cases h : p.1 = k
    · simpa [delKey, h] using ih
    · simpa [delKey, lookupKey, h] using ih

theorem lookupKey_delKey_ne {α : Type} {k k' : String} (h : k' ≠ k)
    (l : List (String × α)) : lookupKey k' (delKey k l) = lookupKey k' l := by
  induction l with
  | nil => rfl
  | cons p ps ih =>
    simp only [delKey, ne_eq, decide_not] at ih ⊢
    by_cases hp : p.1 = k
    · have hkk : k ≠ k' := Ne.symm h
      simp [List.filter_cons, hp, lookupKey, hkk, ih]
    · simp [List.filter_cons, hp, lookupKey, ih]

theorem lookupKey_setKey_self {α : Type} (k : String) (v : α)
    (l : List (String × α)) : lookupKey k (setKey k v l) = some v := by
  simp [setKey, lookupKey]

theorem lookupKey_setKey_ne {α : Type} {k k' : String} (h : k' ≠ k) (v : α)
    (l : List (String × α)) : lookupKey k' (setKey k v l) = lookupKey k' l := by
  simp only [setKey, lookupKey, if_neg (fun hh : k = k' => h hh.symm)]
  exact lookupKey_delKey_ne h l

/-! ## Data model -/

/-- Exit reasons produced by `_check_exit_conditions` (`trading_bot.py`
lines 503-521): the three reason strings are `"Target Profit (...)"`,
`"Stop Loss (...)"` and `"Bollinger Band Upper"`. -/
inductive ExitReason where
  | targetProfit
  | stopLoss
  | bollingerUpper
  deriving DecidableEq

/-- Embeds the Python substring test `'Profit' in exit_reason`
(`trading_bot.py` line 366), evaluated on the three reason strings the
engine produces: only `"Target Profit (...)"` contains `"Profit"`;
`"Stop Loss (...)"` and `"Bollinger Band Upper"` do not. -/
def ExitReason.containsProfit : ExitReason → Bool
  | .targetProfit => true
  | .stopLoss => false
  | .bollingerUpper => false

/-- Value stored in `sold_coins_cooldown`: either the legacy bare number
(the old float format, lines 352-356) or the structured record
`{'exit_price': ..., 'reason': ...}` written by `_execute_sell`. -/
inductive CooldownVal where
  | legacy (exitPrice : ℚ)
  | entry (exitPrice : ℚ) (reason : ExitReason)
  deriving DecidableEq

/-- Legacy-format normalization of `_check_entry_conditions` lines 352-356:
a bare number is reinterpreted as a Target Profit exit at that price. -/
def CooldownVal.normalize : CooldownVal → ℚ × ExitReason
  | .legacy p => (p, .targetProfit)
  | .entry p r => (p, r)

/-- Trade identifier held in a position dict: an integer DB row id for
positions opened by `_execute_buy`, or the synthetic string
`f"recovered_{ticker}_{int(time.time())}"` for positions synthesized by
`_recover_positions` (which never matches an integer DB row id). -/
inductive TradeId where
  | db (id : Nat)
  | recovered (ticker : String) (time : Nat)
  deriving DecidableEq

/-- A position dict as stored in `self.positions[ticker]`
(`trading_bot.py` lines 219-225 and 464-470). -/
structure Position where
  ticker : String
  tradeId : TradeId
  entryPrice : ℚ
  amount : ℚ
  entryTime : Nat
  deriving DecidableEq

/-- Feature dict produced by `FeatureEngineer.extract_features`. Only the
indicators the trading engine reads (`rsi`, `bb_position`) are modelled;
the remaining indicator fields never influence control flow in
`trading_bot.py`. -/
structure Features where
  rsi : ℚ
  bbPosition : ℚ
  deriving DecidableEq

/-- A row of the `trades` ledger table (`data_manager.py` lines 59-87),
restricted to the columns the engine reads or writes through
`save_trade_entry` / `update_trade_exit` / `get_statistics`. -/
structure TradeRecord where
  id : Nat
  ticker : String
  entryPrice : ℚ
  exitPrice : Option ℚ
  profitRate : Option ℚ
  isProfitable : Option Bool
  modelConfidence : ℚ
  statusClosed : Bool
  deriving DecidableEq

/-- Configuration values loaded from the environment in
`TradingBot.__init__` (lines 70-77). -/
structure Config where
  tradeAmount : ℚ
  targetProfit : ℚ
  stopLoss : ℚ
  rebuyThreshold : ℚ
  confidenceThreshold : ℚ
  retrainThreshold : Nat
  deriving DecidableEq

/-- Mutable bot state: active ticker list (the watchlist), position table,
cooldown table, session counters, and the ledger (the SQLite `trades`
table, with its autoincrement counter). -/
structure BotState where
  tickers : List String
  positions : List (String × Position)
  cooldown : List (String × CooldownVal)
  sessionTrades : Nat
  sessionWins : Nat
  ledger : List TradeRecord
  nextTradeId : Nat
  deriving DecidableEq

/-! ## Ledger operations (`data_manager.py`) -/

/-- TradeMemory.save_trade_entry: insert an open trade row, returning its
autoincrement id. -/
def saveTradeEntry (ticker : String) (entryPrice : ℚ) (confidence : ℚ)
    (ledger : List TradeRecord) (nextId : Nat) : List TradeRecord × Nat :=
  (ledger ++ [{ id := nextId, ticker := ticker, entryPrice := entryPrice,
                exitPrice := none, profitRate := none, isProfitable := none,
                modelConfidence := confidence, statusClosed := false }],
   nextId)

/-- TradeMemory.update_trade_exit (`data_manager.py` lines 146-189): look
the trade up by id; if absent (including the synthetic recovered-position
string ids, which never match the integer id column) skip; otherwise set
exit price, profit rate, the fee-allowing profitability flag
`profit_rate > 0.001`, and close the row. -/
def updateTradeExit (tid : TradeId) (exitPrice : ℚ)
    (ledger : List TradeRecord) : List TradeRecord :=
  match tid with
  | .recovered _ _ => ledger
  | .db i =>
    if (ledger.find? (fun r => decide (r.id = i))).isSome then
      ledger.map (fun r =>
        if r.id = i then
          { r with exitPrice := some exitPrice,
                   profitRate := some ((exitPrice - r.entryPrice) / r.entryPrice),
                   isProfitable :=
                     some (decide ((exitPrice - r.entryPrice) / r.entryPrice > 1/1000)),
                   statusClosed := true }
        else r)
    else ledger

/-! ## Exit evaluation (`_check_exit_conditions`, lines 477-534) -/

/-- Exit rule decision of `_check_exit_conditions` lines 503-521, given
the signed profit rate, the candle fetch result (`none` models
`df is None`, otherwise the dataframe length), and the `bb_position`
feature (`none` models the empty feature dict returned by
`extract_features` when fewer than 30 candles are available; the code
reads it through `features.get('bb_position', 0)`). -/
def exitDecision (cfg : Config) (profitRate : ℚ) (dfLen : Option Nat)
    (featBB : Option ℚ) : Option ExitReason :=
  if cfg.targetProfit ≤ profitRate then some .targetProfit
  else if profitRate ≤ -cfg.stopLoss then some .stopLoss
  else if 20 ≤ dfLen.getD 0 ∧ 95/100 < featBB.getD 0 then some .bollingerUpper
  else none

/-! ## Entry evaluation (`_check_entry_conditions`, lines 314-415, and
`_execute_buy`, lines 417-475) -/

/-- Environment inputs of one entry evaluation: the candle fetch result
(`none` for `df is None`, otherwise its length), the extracted feature
dict (`none` for the falsy empty dict), the predictor output, the current
price fetch result (the evaluation fetches the price during the cooldown
check and again inside `_execute_buy`; the market is modelled as stable
within the single evaluation), the current wall-clock time, and whether
the exchange accepts a market buy order. -/
structure EntryCtx where
  dfLen : Option Nat
  features : Option Features
  prediction : Nat
  confidence : ℚ
  currentPrice : Option ℚ
  now : Nat
  buyOrderOk : Bool

/-- Result of one entry evaluation: the post state, whether the cooldown
gate released during this evaluation, and whether a buy order was placed
and accepted (a Position created) during this evaluation. -/
structure EntryResult where
  state : BotState
  released : Bool
  bought : Bool
  deriving DecidableEq

/-- The `_execute_buy` body (lines 417-475): minimum-notional check, price
fetch, market buy; on success record the ledger entry and create the
Position. The returned flag reports whether a Position was created. -/
def executeBuy (cfg : Config) (ctx : EntryCtx) (ticker : String)
    (confidence : ℚ) (s : BotState) : BotState × Bool :=
  if cfg.tradeAmount < 5000 then (s, false)
  else
    match ctx.currentPrice with
    | none => (s, false)
    | some price =>
      let buyAmount := cfg.tradeAmount / price
      if ctx.buyOrderOk then
        let saved := saveTradeEntry ticker price confidence s.ledger s.nextTradeId
        let pos : Position :=
          { ticker := ticker, tradeId := .db saved.2, entryPrice := price,
            amount := buyAmount, entryTime := ctx.now }
        ({ s with ledger := saved.1, nextTradeId := saved.2 + 1,
                  positions := setKey ticker pos s.positions }, true)
      else (s, false)

/-- Tail of `_check_entry_conditions` after the cooldown block (lines
405-412): recompute nothing, just test the two gates
`ai_signal = (prediction == 1) and (confidence > confidence_threshold)`
and `oversold = (rsi < 30) or (bb_position < 0.2)`, and buy when both
pass. -/
def entrySignalPhase (cfg : Config) (ctx : EntryCtx) (ticker : String)
    (feats : Features) (released : Bool) (s : BotState) : EntryResult :=
  let aiSignal := decide (ctx.prediction = 1) &&
    decide (cfg.confidenceThreshold < ctx.confidence)
  let oversold := decide (feats.rsi < 30) || decide (feats.bbPosition < 1/5)
  if aiSignal && oversold then
    let r := executeBuy cfg ctx ticker ctx.confidence s
    ⟨r.1, released, r.2⟩
  else ⟨s, released, false⟩

/-- Cooldown release bookkeeping (lines 399-403): delete the CooldownEntry
and re-append the ticker to the active list when absent. -/
def releaseCooldown (ticker : String) (s : BotState) : BotState :=
  { s with cooldown := delKey ticker s.cooldown,
           tickers := if ticker ∈ s.tickers then s.tickers
                      else s.tickers ++ [ticker] }

/-- The `_check_entry_conditions` body (lines 314-415): candle and feature
guards, duplicate-position guard, the directional cooldown gate
(normalizing a legacy bare-number cooldown value in place, then branching
on `'Profit' in reason`), and — when no guard returns early — the
two-gate signal check with `_execute_buy`. -/
def checkEntryConditions (cfg : Config) (ctx : EntryCtx) (ticker : String)
    (s : BotState) : EntryResult :=
  if ctx.dfLen.getD 0 < 30 then ⟨s, false, false⟩
  else
    match ctx.features with
    | none => ⟨s, false, false⟩
    | some feats =>
      if (lookupKey ticker s.positions).isSome then ⟨s, false, false⟩
      else
        match lookupKey ticker s.cooldown with
        | none => entrySignalPhase cfg ctx ticker feats false s
        | some cv =>
          let info := cv.normalize
          let s1 :=
            match cv with
            | .legacy p =>
              { s with cooldown :=
                  setKey ticker (.entry p .targetProfit) s.cooldown }
            | .entry _ _ => s
          match ctx.currentPrice with
          | none => ⟨s1, false, false⟩
          | some price =>
            if info.2.containsProfit then
              if info.1 * (1 - cfg.rebuyThreshold) ≤ price then
                ⟨s1, false, false⟩
              else
                entrySignalPhase cfg ctx ticker feats true
                  (releaseCooldown ticker s1)
            else
              if price ≤ info.1 * (1 + cfg.rebuyThreshold) then
                ⟨s1, false, false⟩
              else
                entrySignalPhase cfg ctx ticker feats true
                  (releaseCooldown ticker s1)

/-! ## Sell execution (`_execute_sell`, lines 536-658) -/

/-- Environment inputs of one sell execution: the live exchange holdings
(ticker and held amount), the order-book top bid fetch result, and whether
the exchange accepts the market sell order. -/
structure SellCtx where
  holdings : List (String × ℚ)
  bidPrice : Option ℚ
  sellOrderOk : Bool

/-- Outcome classification for `_execute_sell`. -/
inductive SellOutcome where
  | noPosition
  | externallyLiquidated
  | belowMinimum
  | orderFailed
  | sold
  deriving DecidableEq

/-- Balance sync of `_execute_sell` lines 552-558 on the position record:
the remembered amount is replaced by the live held amount when they
differ. -/
def syncedPosition (pos : Position) (actualAmount : ℚ) : Position :=
  if actualAmount = pos.amount then pos else { pos with amount := actualAmount }

/-- Balance sync of `_execute_sell` lines 552-558 on the bot state: the
position dict of `ticker` is mutated in place exactly when the live held
amount differs from the remembered one. -/
def syncedState (ticker : String) (pos : Position) (actualAmount : ℚ)
    (s : BotState) : BotState :=
  if actualAmount = pos.amount then s
  else { s with positions := setKey ticker (syncedPosition pos actualAmount) s.positions }

/-- Bid price used for the minimum-notional estimate (lines 566-571):
falls back to the exit price when the bid fetch is falsy (absent or 0). -/
def effectiveBid (bidPrice : Option ℚ) (exitPrice : ℚ) : ℚ :=
  match bidPrice with
  | none => exitPrice
  | some b => if b = 0 then exitPrice else b

/-- State written by `_execute_sell` lines 604-645 after the exchange
accepted the market sell: ledger exit update (skipped when the trade id
matches no row), session counters, cooldown registration, removal from
the active ticker list, and deletion of the Position. -/
def soldState (ticker : String) (exitPrice : ℚ) (reason : ExitReason)
    (pos1 : Position) (s1 : BotState) : BotState :=
  { s1 with
      ledger := updateTradeExit pos1.tradeId exitPrice s1.ledger,
      sessionTrades := s1.sessionTrades + 1,
      sessionWins := s1.sessionWins +
        (if 0 < (exitPrice - pos1.entryPrice) / pos1.entryPrice then 1 else 0),
      cooldown := setKey ticker (.entry exitPrice reason) s1.cooldown,
      tickers := s1.tickers.erase ticker,
      positions := delKey ticker s1.positions }

/-- The `_execute_sell` body (lines 536-658): re-read the held amount and
sync the remembered quantity (dropping the Position without an order when
the holding vanished); enforce the 4,990 KRW minimum estimated notional
against the effective bid; place the market sell; on success apply the
close transition `soldState`. -/
def executeSell (ctx : SellCtx) (ticker : String)
    (exitPrice : ℚ) (reason : ExitReason) (s : BotState) :
    BotState × SellOutcome :=
  match lookupKey ticker s.positions with
  | none => (s, .noPosition)
  | some pos =>
    match lookupKey ticker ctx.holdings with
    | none => ({ s with positions := delKey ticker s.positions },
               .externallyLiquidated)
    | some actualAmount =>
      let pos1 := syncedPosition pos actualAmount
      let s1 := syncedState ticker pos actualAmount s
      if pos1.amount * effectiveBid ctx.bidPrice exitPrice < 4990 then
        (s1, .belowMinimum)
      else if ctx.sellOrderOk then
        (soldState ticker exitPrice reason pos1 s1, .sold)
      else (s1, .orderFailed)

/-! ## Exchange reconciliation (`_recover_positions`, lines 191-235, and
`_sync_positions_with_exchange`, lines 237-261) -/

/-- One exchange holding as reported by `get_holdings()`. -/
structure Holding where
  ticker : String
  amount : ℚ
  avgBuyPrice : ℚ
  deriving DecidableEq

/-- Effective entry price `_recover_positions` would synthesize for a
holding: the exchange-reported average cost, falling back to
`get_current_price(ticker) or 0` when the cost is non-positive. -/
def effectiveEntryPrice (priceOf : String → Option ℚ) (h : Holding) : ℚ :=
  if h.avgBuyPrice ≤ 0 then (priceOf h.ticker).getD 0 else h.avgBuyPrice

/-- One iteration of the `_recover_positions` loop (lines 201-230): skip
tickers the bot already tracks; skip when no positive entry price can be
synthesized; otherwise register the recovered Position and add the ticker
to the active list when absent. -/
def recoverStep (priceOf : String → Option ℚ) (now : Nat) (s : BotState)
    (h : Holding) : BotState :=
  if (lookupKey h.ticker s.positions).isSome then s
  else if effectiveEntryPrice priceOf h ≤ 0 then s
  else
    { s with
        positions := setKey h.ticker
          { ticker := h.ticker, tradeId := .recovered h.ticker now,
            entryPrice := effectiveEntryPrice priceOf h,
            amount := h.amount, entryTime := now } s.positions,
        tickers := if h.ticker ∈ s.tickers then s.tickers
                   else s.tickers ++ [h.ticker] }

/-- The `_recover_positions` body: fold the recovery step over the
holdings list returned by the exchange. -/
def recoverPositions (priceOf : String → Option ℚ) (now : Nat)
    (holdings : List Holding) (s : BotState) : BotState :=
  holdings.foldl (recoverStep priceOf now) s

/-- The `_sync_positions_with_exchange` body: delete every tracked
Position whose ticker is not among the live holdings, and remove each such
ticker from the active list; everything else is untouched. -/
def syncPositions (held : List String) (s : BotState) : BotState :=
  let removed := (s.positions.map Prod.fst).filter (fun t => decide (t ∉ held))
  { s with
      positions := s.positions.filter (fun p => decide (p.1 ∈ held)),
      tickers := removed.foldl (fun acc t => acc.erase t) s.tickers }

/-! ## Watchlist reconciler (spec-modelled)

The dynamic watchlist reconciler `_manage_tickers_dynamically` (with its
per-ticker `ticker_absence_count` and `ticker_origin_range` tables) lives
in `backend/core/trading_bot.py`, which is not part of the provided
sources — only its test `src/test_dynamic_ticker.py` is. Its batch
algorithm is therefore modelled from the spec. -/

/-- Watchlist entry of the reconciler: consecutive same-origin-range
absence count and the origin range the instrument was last confirmed
in. -/
structure WatchlistEntry where
  absenceCount : Nat
  originRange : Nat × Nat
  deriving DecidableEq

/-- Modelled from the spec: absence-count update of the missing
`_manage_tickers_dynamically` (spec section 4.2 steps 2-3) on one entry —
an entry whose origin range equals the batch's but whose instrument is
absent from the batch has its absence count incremented; entries with a
different origin range are left untouched. -/
def reconcileMark (batch : List String) (range : Nat × Nat)
    (p : String × WatchlistEntry) : String × WatchlistEntry :=
  if p.2.originRange = range ∧ p.1 ∉ batch then
    (p.1, ⟨p.2.absenceCount + 1, p.2.originRange⟩)
  else p

/-- Modelled from the spec: eviction rule of the missing
`_manage_tickers_dynamically` (spec section 4.2 step 4) — an entry
survives when its absence count is below 2 or its instrument currently
holds an open Position. -/
def reconcileKeep (positioned : List String)
    (p : String × WatchlistEntry) : Bool :=
  decide (p.2.absenceCount < 2) || decide (p.1 ∈ positioned)

/-- Modelled from the spec: the batch-processing algorithm of the missing
`_manage_tickers_dynamically` (spec section 4.2). (1) every instrument
present in the batch gets its entry created or reset to absence count 0
with the batch's origin range; (2)-(3) same-origin absent entries are
incremented, other-origin entries left untouched (`reconcileMark`); (4)
after the updates, any entry with absence count at least 2 is evicted
unless the instrument currently holds an open Position
(`reconcileKeep`). -/
def reconcileBatch (batch : List String) (range : Nat × Nat)
    (positioned : List String) (wl : List (String × WatchlistEntry)) :
    List (String × WatchlistEntry) :=
  ((batch.foldl (fun acc t => setKey t ⟨0, range⟩ acc) wl).map
    (reconcileMark batch range)).filter (reconcileKeep positioned)

/-! ## Concrete fixtures

Named concrete inputs used by witnesses and counterexamples, matching the
default configuration of `TradingBot.__init__`: trade amount 10,000 KRW,
target profit 2 percent, stop loss 2 percent, rebuy gap 1.5 percent,
confidence threshold 0.7, retrain threshold 10. -/

/-- Default configuration of `TradingBot.__init__`. -/
def defaultConfig : Config := ⟨10000, 2/100, 2/100, 15/1000, 7/10, 10⟩

/-- Entry-evaluation context sitting at a given current price, with 30
candles, a neutral feature vector, and a down-prediction (so no buy can
fire). -/
def neutralEntryCtxAt (price : ℚ) : EntryCtx :=
  ⟨some 30, some ⟨50, 1/2⟩, 0, 0, some price, 0, false⟩

/-- Entry-evaluation context sitting at a given current price whose
signals all pass: up-prediction at confidence 0.8, oversold RSI 25, and an
exchange that accepts the buy. -/
def bullishEntryCtxAt (price : ℚ) : EntryCtx :=
  ⟨some 30, some ⟨25, 1/2⟩, 1, 8/10, some price, 0, true⟩

/-- Bot state holding only a cooldown entry for BTC with the given exit
price and reason. -/
def cooldownOnlyState (ep : ℚ) (r : ExitReason) : BotState :=
  ⟨[], [], [("BTC", CooldownVal.entry ep r)], 0, 0, [], 1⟩

/-- Entry-evaluation context with passing signals whose buy order the
exchange rejects. -/
def failedBuyCtx : EntryCtx :=
  ⟨some 30, some ⟨25, 1/2⟩, 1, 8/10, some 100, 0, false⟩

/-- A BTC position bought at 99.5 holding 100 units under DB trade id 1. -/
def btcPosition : Position := ⟨"BTC", .db 1, 995/10, 100, 0⟩

/-- Bot state tracking and watching exactly the BTC position. -/
def positionedState : BotState :=
  ⟨["BTC"], [("BTC", btcPosition)], [], 0, 0, [], 5⟩

/-- Sell context in which the exchange reports the tracked 100 units, bids
100, and accepts the order. -/
def sellCtxOk : SellCtx := ⟨[("BTC", 100)], some 100, true⟩

/-- Sell context like `sellCtxOk` but whose order the exchange rejects. -/
def sellCtxRejected : SellCtx := ⟨[("BTC", 100)], some 100, false⟩

/-- A BTC position bought at 1000 holding 10 units under DB trade id 1. -/
def ledgerPos : Position := ⟨"BTC", .db 1, 1000, 10, 0⟩

/-- The open ledger row recorded when `ledgerPos` was bought. -/
def openRec : TradeRecord := ⟨1, "BTC", 1000, none, none, none, 7/10, false⟩

/-- Bot state tracking `ledgerPos` with its open ledger row. -/
def ledgerState : BotState :=
  ⟨["BTC"], [("BTC", ledgerPos)], [], 0, 0, [openRec], 2⟩

/-- Sell context reporting the 10 tracked units at bid 1000 with an
accepting exchange. -/
def sellCtxLedger : SellCtx := ⟨[("BTC", 10)], some 1000, true⟩

/-- An ETH position recovered from the exchange at average cost 200. -/
def ethPosition : Position := ⟨"ETH", .recovered "ETH" 42, 200, 1, 42⟩

/-- Bot state watching BTC and ETH with both positioned, one legacy
cooldown and a non-trivial ledger and counters. -/
def driftState : BotState :=
  ⟨["BTC", "ETH"], [("BTC", btcPosition), ("ETH", ethPosition)],
   [("SOL", CooldownVal.legacy 5)], 3, 2, [openRec], 7⟩

/-- Empty bot state used as the recovery baseline. -/
def emptyState : BotState := ⟨[], [], [], 0, 0, [], 1⟩

/-- Price table giving a price only for BTC. -/
def priceTable : String → Option ℚ :=
  fun t => if t = "BTC" then some 100 else none

/-- Exchange holdings with a recoverable BTC (zero average cost but a live
price) and an unrecoverable XRP (zero average cost, no price). -/
def sampleHoldings : List Holding := [⟨"BTC", 1, 0⟩, ⟨"XRP", 2, 0⟩]

/-! ## General helper lemmas -/

theorem lookupKey_eq_none_iff {α : Type} (k : String) (l : List (String × α)) :
    lookupKey k l = none ↔ k ∉ l.map Prod.fst := by
  induction l with
  | nil => simp [lookupKey]
  | cons p ps ih =>
    simp only [lookupKey, List.map_cons, List.mem_cons]
    by_cases hp : p.1 = k
    · simp [hp]
    · rw [if_neg hp, ih]
      constructor
      · intro h2
        exact not_or.mpr ⟨fun hh => hp hh.symm, h2⟩
      · intro h2
        exact (not_or.mp h2).2

theorem nodupKeys_setKey {α : Type} (k : String) (v : α)
    (l : List (String × α)) (h : (l.map Prod.fst).Nodup) :
    ((setKey k v l).map Prod.fst).Nodup := by
  refine List.nodup_cons.mpr ⟨?_, ?_⟩
  · intro hk
    rcases List.mem_map.mp hk with ⟨p, hp, hpk⟩
    rcases List.mem_filter.mp hp with ⟨-, hpne⟩
    exact (decide_eq_true_eq.mp hpne) hpk
  · exact ((List.filter_sublist l).map Prod.fst).nodup h

/-- A buy never touches the cooldown table. -/
theorem executeBuy_cooldown_eq (cfg : Config) (ctx : EntryCtx) (ticker : String)
    (conf : ℚ) (s : BotState) :
    (executeBuy cfg ctx ticker conf s).1.cooldown = s.cooldown := by
  by_cases h : cfg.tradeAmount < 5000
  · simp [executeBuy, h]
  · cases hp : ctx.currentPrice with
    | none => simp [executeBuy, h, hp]
    | some price => cases hb : ctx.buyOrderOk <;> simp [executeBuy, h, hp, hb]

/-- A buy never touches the active ticker list. -/
theorem executeBuy_tickers_eq (cfg : Config) (ctx : EntryCtx) (ticker : String)
    (conf : ℚ) (s : BotState) :
    (executeBuy cfg ctx ticker conf s).1.tickers = s.tickers := by
  by_cases h : cfg.tradeAmount < 5000
  · simp [executeBuy, h]
  · cases hp : ctx.currentPrice with
    | none => simp [executeBuy, h, hp]
    | some price => cases hb : ctx.buyOrderOk <;> simp [executeBuy, h, hp, hb]

theorem entrySignalPhase_cooldown_eq (cfg : Config) (ctx : EntryCtx)
    (ticker : String) (feats : Features) (rel : Bool) (s : BotState) :
    (entrySignalPhase cfg ctx ticker feats rel s).state.cooldown = s.cooldown := by
  simp only [entrySignalPhase]
  split
  · exact executeBuy_cooldown_eq cfg ctx ticker ctx.confidence s
  · rfl

theorem entrySignalPhase_tickers_eq (cfg : Config) (ctx : EntryCtx)
    (ticker : String) (feats : Features) (rel : Bool) (s : BotState) :
    (entrySignalPhase cfg ctx ticker feats rel s).state.tickers = s.tickers := by
  simp only [entrySignalPhase]
  split
  · exact executeBuy_tickers_eq cfg ctx ticker ctx.confidence s
  · rfl

theorem entrySignalPhase_released_eq (cfg : Config) (ctx : EntryCtx)
    (ticker : String) (feats : Features) (rel : Bool) (s : BotState) :
    (entrySignalPhase cfg ctx ticker feats rel s).released = rel := by
  simp only [entrySignalPhase]
  split <;> rfl

/-- The buy-success flag depends only on the minimum-notional check, the
price availability and the exchange's answer. -/
theorem executeBuy_snd_eq (cfg : Config) (ctx : EntryCtx) (ticker : String)
    (conf : ℚ) (s : BotState) :
    (executeBuy cfg ctx ticker conf s).2 =
      (decide (¬ cfg.tradeAmount < 5000) && ctx.currentPrice.isSome &&
        ctx.buyOrderOk) := by
  by_cases h : cfg.tradeAmount < 5000
  · simp [executeBuy, h]
  · cases hp : ctx.currentPrice with
    | none => simp [executeBuy, h, hp]
    | some price => cases hb : ctx.buyOrderOk <;> simp [executeBuy, h, hp, hb]

/-- The signal phase buys exactly when both entry gates and the buy
preconditions pass. -/
theorem entrySignalPhase_bought_eq (cfg : Config) (ctx : EntryCtx)
    (ticker : String) (feats : Features) (rel : Bool) (s : BotState) :
    (entrySignalPhase cfg ctx ticker feats rel s).bought =
      ((decide (ctx.prediction = 1) &&
        decide (cfg.confidenceThreshold < ctx.confidence)) &&
       (decide (feats.rsi < 30) || decide (feats.bbPosition < 1/5)) &&
       (executeBuy cfg ctx ticker ctx.confidence s).2) := by
  simp only [entrySignalPhase]
  split
  · rename_i hcond
    rw [hcond, Bool.true_and]
  · rename_i hcond
    rw [Bool.not_eq_true] at hcond
    rw [hcond, Bool.false_and]

/-- The release bookkeeping always leaves the ticker in the active list. -/
theorem mem_releaseCooldown_tickers (ticker : String) (s : BotState) :
    ticker ∈ (releaseCooldown ticker s).tickers := by
  simp only [releaseCooldown]
  split
  · assumption
  · simp

/-- The balance sync never touches fields other than the position table. -/
theorem syncedState_fields (ticker : String) (pos : Position)
    (actualAmount : ℚ) (s : BotState) :
    (syncedState ticker pos actualAmount s).tickers = s.tickers ∧
    (syncedState ticker pos actualAmount s).cooldown = s.cooldown ∧
    (syncedState ticker pos actualAmount s).sessionTrades = s.sessionTrades ∧
    (syncedState ticker pos actualAmount s).sessionWins = s.sessionWins ∧
    (syncedState ticker pos actualAmount s).ledger = s.ledger ∧
    (syncedState ticker pos actualAmount s).nextTradeId = s.nextTradeId := by
  unfold syncedState
  split <;> exact ⟨rfl, rfl, rfl, rfl, rfl, rfl⟩

/-- The balance sync preserves every position field except the amount. -/
theorem syncedPosition_fields (pos : Position) (actualAmount : ℚ) :
    (syncedPosition pos actualAmount).ticker = pos.ticker ∧
    (syncedPosition pos actualAmount).tradeId = pos.tradeId ∧
    (syncedPosition pos actualAmount).entryPrice = pos.entryPrice ∧
    (syncedPosition pos actualAmount).entryTime = pos.entryTime := by
  unfold syncedPosition
  split <;> exact ⟨rfl, rfl, rfl, rfl⟩

/-- After the balance sync the ticker's position is the synced one. -/
theorem syncedState_lookup_self (ticker : String) (pos : Position)
    (actualAmount : ℚ) (s : BotState)
    (hpos : lookupKey ticker s.positions = some pos) :
    lookupKey ticker (syncedState ticker pos actualAmount s).positions =
      some (syncedPosition pos actualAmount) := by
  unfold syncedState syncedPosition
  split
  · rename_i heq
    simpa [heq] using hpos
  · exact lookupKey_setKey_self ticker _ s.positions

/-- The balance sync leaves every other ticker's position unchanged. -/
theorem syncedState_lookup_ne (ticker t : String) (pos : Position)
    (actualAmount : ℚ) (s : BotState) (hne : t ≠ ticker) :
    lookupKey t (syncedState ticker pos actualAmount s).positions =
      lookupKey t s.positions := by
  unfold syncedState
  split
  · rfl
  · exact lookupKey_setKey_ne hne _ s.positions

/-- Characterization of a sell the exchange accepted: the position and the
live holding were found, and the final state is the close transition
applied to the synced state. -/
theorem executeSell_sold_eq (ctx : SellCtx) (ticker : String) (exitP : ℚ)
    (reason : ExitReason) (s s' : BotState)
    (h : executeSell ctx ticker exitP reason s = (s', .sold)) :
    ∃ pos actualAmount,
      lookupKey ticker s.positions = some pos ∧
      lookupKey ticker ctx.holdings = some actualAmount ∧
      ctx.sellOrderOk = true ∧
      s' = soldState ticker exitP reason (syncedPosition pos actualAmount)
             (syncedState ticker pos actualAmount s) := by
  unfold executeSell at h
  cases hpos : lookupKey ticker s.positions with
  | none => simp only [hpos] at h; simp at h
  | some pos =>
    simp only [hpos] at h
    cases hh : lookupKey ticker ctx.holdings with
    | none => simp only [hh] at h; simp at h
    | some actualAmount =>
      simp only [hh] at h
      by_cases hmin : (syncedPosition pos actualAmount).amount *
          effectiveBid ctx.bidPrice exitP < 4990
      · rw [if_pos hmin] at h; simp at h
      · rw [if_neg hmin] at h
        cases hok : ctx.sellOrderOk with
        | false => simp only [hok, Bool.false_eq_true, if_false] at h; simp at h
        | true =>
          simp only [hok, eq_self_iff_true, if_true, Prod.mk.injEq] at h
          exact ⟨pos, actualAmount, rfl, rfl, rfl, h.1.symm⟩

/-- Characterization of a sell the exchange rejected: the position and the
live holding were found, and the final state is exactly the synced state
from just before the order attempt. -/
theorem executeSell_orderFailed_eq (ctx : SellCtx) (ticker : String)
    (exitP : ℚ) (reason : ExitReason) (s s' : BotState)
    (h : executeSell ctx ticker exitP reason s = (s', .orderFailed)) :
    ∃ pos actualAmount,
      lookupKey ticker s.positions = some pos ∧
      lookupKey ticker ctx.holdings = some actualAmount ∧
      ctx.sellOrderOk = false ∧
      s' = syncedState ticker pos actualAmount s := by
  unfold executeSell at h
  cases hpos : lookupKey ticker s.positions with
  | none => simp only [hpos] at h; simp at h
  | some pos =>
    simp only [hpos] at h
    cases hh : lookupKey ticker ctx.holdings with
    | none => simp only [hh] at h; simp at h
    | some actualAmount =>
      simp only [hh] at h
      by_cases hmin : (syncedPosition pos actualAmount).amount *
          effectiveBid ctx.bidPrice exitP < 4990
      · rw [if_pos hmin] at h; simp at h
      · rw [if_neg hmin] at h
        cases hok : ctx.sellOrderOk with
        | true => simp only [hok, eq_self_iff_true, if_true] at h; simp at h
        | false =>
          simp only [hok, Bool.false_eq_true, if_false, Prod.mk.injEq] at h
          exact ⟨pos, actualAmount, rfl, rfl, rfl, h.1.symm⟩

/-- Gate path of the entry evaluation: with a structured cooldown record,
when the price has not crossed the directional release threshold, the
evaluation returns immediately with the state unchanged. -/
theorem checkEntry_gate_closed (cfg : Config) (ctx : EntryCtx)
    (ticker : String) (s : BotState) (feats : Features) (ep price : ℚ)
    (r : ExitReason)
    (hdf : 30 ≤ ctx.dfLen.getD 0)
    (hf : ctx.features = some feats)
    (hpos : lookupKey ticker s.positions = none)
    (hcd : lookupKey ticker s.cooldown = some (.entry ep r))
    (hpr : ctx.currentPrice = some price)
    (hcl : if r.containsProfit then ep * (1 - cfg.rebuyThreshold) ≤ price
           else price ≤ ep * (1 + cfg.rebuyThreshold)) :
    checkEntryConditions cfg ctx ticker s = ⟨s, false, false⟩ := by
  have hdf' : ¬ (ctx.dfLen.getD 0 < 30) := not_lt.mpr hdf
  simp only [checkEntryConditions, if_neg hdf', hf, hpos, hcd, hpr,
    Option.isSome_none, Bool.false_eq_true, if_false, CooldownVal.normalize]
  cases hr : r.containsProfit with
  | true =>
    simp only [hr, eq_self_iff_true, if_true] at hcl ⊢
    rw [if_pos hcl]
  | false =>
    simp only [hr, Bool.false_eq_true, if_false] at hcl ⊢
    rw [if_pos hcl]

/-- Gate path of the entry evaluation: with a structured cooldown record,
when the price has crossed the directional release threshold, the
evaluation deletes the cooldown, re-admits the ticker, and continues with
the signal phase in the same call. -/
theorem checkEntry_gate_release (cfg : Config) (ctx : EntryCtx)
    (ticker : String) (s : BotState) (feats : Features) (ep price : ℚ)
    (r : ExitReason)
    (hdf : 30 ≤ ctx.dfLen.getD 0)
    (hf : ctx.features = some feats)
    (hpos : lookupKey ticker s.positions = none)
    (hcd : lookupKey ticker s.cooldown = some (.entry ep r))
    (hpr : ctx.currentPrice = some price)
    (hrel : if r.containsProfit then price < ep * (1 - cfg.rebuyThreshold)
            else ep * (1 + cfg.rebuyThreshold) < price) :
    checkEntryConditions cfg ctx ticker s =
      entrySignalPhase cfg ctx ticker feats true (releaseCooldown ticker s) := by
  have hdf' : ¬ (ctx.dfLen.getD 0 < 30) := not_lt.mpr hdf
  simp only [checkEntryConditions, if_neg hdf', hf, hpos, hcd, hpr,
    Option.isSome_none, Bool.false_eq_true, if_false, CooldownVal.normalize]
  cases hr : r.containsProfit with
  | true =>
    simp only [hr, eq_self_iff_true, if_true] at hrel ⊢
    rw [if_neg (not_le.mpr hrel)]
  | false =>
    simp only [hr, Bool.false_eq_true, if_false] at hrel ⊢
    rw [if_neg (not_le.mpr hrel)]

/-- Key-based filtering commutes with dictionary lookup. -/
theorem lookupKey_filter_key {α : Type} (g : String → Bool) (k : String)
    (l : List (String × α)) :
    lookupKey k (l.filter (fun p => g p.1)) =
      if g k then lookupKey k l else none := by
  induction l with
  | nil => cases hg : g k <;> simp [lookupKey, hg]
  | cons p ps ih =>
    by_cases hp : p.1 = k
    · subst hp
      rw [List.filter_cons]
      cases hg : g p.1 with
      | true => simp [lookupKey]
      | false =>
        rw [if_neg Bool.false_ne_true, if_neg Bool.false_ne_true, ih, hg]
        simp
    · have hskip : lookupKey k (p :: ps) = lookupKey k ps := by
        rw [lookupKey, if_neg hp]
      rw [List.filter_cons, hskip]
      cases hg : g p.1 with
      | true =>
        rw [if_pos rfl, lookupKey, if_neg hp]
        exact ih
      | false =>
        rw [if_neg Bool.false_ne_true]
        exact ih

/-- Membership in a fold of erasures over a list not containing the
element is membership in the base list. -/
theorem mem_foldl_erase_iff (rs : List String) (l : List String)
    (t : String) (h : t ∉ rs) :
    t ∈ rs.foldl (fun acc x => acc.erase x) l ↔ t ∈ l := by
  induction rs generalizing l with
  | nil => exact Iff.rfl
  | cons r rs ih =>
    have hne : t ≠ r := fun hh => h (hh ▸ List.mem_cons_self r rs)
    rw [List.foldl_cons, ih _ (fun hm => h (List.mem_cons_of_mem r hm))]
    exact List.mem_erase_of_ne hne

/-- A fold of erasures never adds elements. -/
theorem mem_of_mem_foldl_erase (rs : List String) (l : List String)
    (t : String) (h : t ∈ rs.foldl (fun acc x => acc.erase x) l) : t ∈ l := by
  induction rs generalizing l with
  | nil => exact h
  | cons r rs ih => exact List.erase_subset r l (ih _ h)

/-- Erasing every element of a list from a duplicate-free base removes
each of them. -/
theorem not_mem_foldl_erase (rs : List String) (l : List String)
    (t : String) (hm : t ∈ rs) (hnd : l.Nodup) :
    t ∉ rs.foldl (fun acc x => acc.erase x) l := by
  induction rs generalizing l with
  | nil => cases hm
  | cons r rs ih =>
    rw [List.foldl_cons]
    rcases List.mem_cons.mp hm with rfl | hm
    · intro hcon
      exact hnd.not_mem_erase (mem_of_mem_foldl_erase rs _ t hcon)
    · exact ih (l.erase r) hm (hnd.erase r)

/-- Ledger exit update on a one-row table whose row matches the id. -/
theorem updateTradeExit_single (i : Nat) (exitP : ℚ) (row : TradeRecord)
    (hrid : row.id = i) :
    updateTradeExit (.db i) exitP [row] =
      [{ row with
          exitPrice := some exitP,
          profitRate := some ((exitP - row.entryPrice) / row.entryPrice),
          isProfitable :=
            some (decide ((exitP - row.entryPrice) / row.entryPrice > 1/1000)),
          statusClosed := true }] := by
  subst hrid
  simp [updateTradeExit, List.find?]

/-- A recovery step is the identity when the ticker is already tracked or
no positive entry price can be synthesized. -/
theorem recoverStep_skip (priceOf : String → Option ℚ) (now : Nat)
    (s : BotState) (h : Holding)
    (hc : (lookupKey h.ticker s.positions).isSome = true ∨
      effectiveEntryPrice priceOf h ≤ 0) :
    recoverStep priceOf now s h = s := by
  unfold recoverStep
  rcases hc with hc | hc
  · rw [if_pos hc]
  · by_cases hp : (lookupKey h.ticker s.positions).isSome = true
    · rw [if_pos hp]
    · rw [if_neg hp, if_pos hc]

/-- A recovery step never removes a tracked position. -/
theorem recoverStep_mono (priceOf : String → Option ℚ) (now : Nat)
    (s : BotState) (h : Holding) (t : String)
    (ht : (lookupKey t s.positions).isSome = true) :
    (lookupKey t (recoverStep priceOf now s h).positions).isSome = true := by
  unfold recoverStep
  by_cases h1 : (lookupKey h.ticker s.positions).isSome = true
  · rw [if_pos h1]
    exact ht
  · rw [if_neg h1]
    by_cases h2 : effectiveEntryPrice priceOf h ≤ 0
    · rw [if_pos h2]
      exact ht
    · rw [if_neg h2]
      show (lookupKey t (setKey h.ticker _ s.positions)).isSome = true
      by_cases he : t = h.ticker
      · subst he
        rw [lookupKey_setKey_self]
        rfl
      · rw [lookupKey_setKey_ne he]
        exact ht

/-- A recovery step registers the holding when a positive entry price can
be synthesized. -/
theorem recoverStep_registered (priceOf : String → Option ℚ) (now : Nat)
    (s : BotState) (h : Holding)
    (hp : 0 < effectiveEntryPrice priceOf h) :
    (lookupKey h.ticker (recoverStep priceOf now s h).positions).isSome
      = true := by
  unfold recoverStep
  by_cases h1 : (lookupKey h.ticker s.positions).isSome = true
  · rw [if_pos h1]
    exact h1
  · rw [if_neg h1, if_neg (not_le.mpr hp)]
    show (lookupKey h.ticker (setKey h.ticker _ s.positions)).isSome = true
    rw [lookupKey_setKey_self]
    rfl

/-- A recovery step touches no ticker other than the holding's own. -/
theorem recoverStep_locality (priceOf : String → Option ℚ) (now : Nat)
    (s : BotState) (h : Holding) (t : String) (hne : t ≠ h.ticker) :
    lookupKey t (recoverStep priceOf now s h).positions =
      lookupKey t s.positions ∧
    (t ∈ (recoverStep priceOf now s h).tickers ↔ t ∈ s.tickers) := by
  unfold recoverStep
  by_cases h1 : (lookupKey h.ticker s.positions).isSome = true
  · rw [if_pos h1]
    exact ⟨rfl, Iff.rfl⟩
  · rw [if_neg h1]
    by_cases h2 : effectiveEntryPrice priceOf h ≤ 0
    · rw [if_pos h2]
      exact ⟨rfl, Iff.rfl⟩
    · rw [if_neg h2]
      constructor
      · show lookupKey t (setKey h.ticker _ s.positions) = _
        exact lookupKey_setKey_ne hne _ _
      · show t ∈ (if h.ticker ∈ s.tickers then s.tickers
            else s.tickers ++ [h.ticker]) ↔ t ∈ s.tickers
        split
        · exact Iff.rfl
        · simp [hne]

/-- Recovery never removes a tracked position. -/
theorem recover_mono (priceOf : String → Option ℚ) (now : Nat)
    (hs : List Holding) (s : BotState) (t : String)
    (ht : (lookupKey t s.positions).isSome = true) :
    (lookupKey t (recoverPositions priceOf now hs s).positions).isSome
      = true := by
  induction hs generalizing s with
  | nil => exact ht
  | cons h hs ih => exact ih _ (recoverStep_mono priceOf now s h t ht)

/-- Every holding with a synthesizable entry price (or an already-tracked
ticker) ends the recovery run tracked. -/
theorem recover_registers (priceOf : String → Option ℚ) (now : Nat)
    (hs : List Holding) (s : BotState) :
    ∀ h ∈ hs, (0 < effectiveEntryPrice priceOf h ∨
      (lookupKey h.ticker s.positions).isSome = true) →
    (lookupKey h.ticker
      (recoverPositions priceOf now hs s).positions).isSome = true := by
  induction hs generalizing s with
  | nil => intro h hm; cases hm
  | cons h0 hs ih =>
    intro h hm hc
    rcases List.mem_cons.mp hm with rfl | hm
    · show (lookupKey h.ticker (recoverPositions priceOf now hs
          (recoverStep priceOf now s h)).positions).isSome = true
      apply recover_mono
      rcases hc with hc | hc
      · exact recoverStep_registered priceOf now s h hc
      · exact recoverStep_mono priceOf now s h h.ticker hc
    · show (lookupKey h.ticker (recoverPositions priceOf now hs
          (recoverStep priceOf now s h0)).positions).isSome = true
      apply ih _ h hm
      rcases hc with hc | hc
      · exact Or.inl hc
      · exact Or.inr (recoverStep_mono priceOf now s h0 h.ticker hc)

/-- Recovery is the identity when every holding is already tracked or
unrecoverable. -/
theorem recover_fold_id (priceOf : String → Option ℚ) (now : Nat)
    (hs : List Holding) (s : BotState)
    (hall : ∀ h ∈ hs, (lookupKey h.ticker s.positions).isSome = true ∨
      effectiveEntryPrice priceOf h ≤ 0) :
    recoverPositions priceOf now hs s = s := by
  induction hs with
  | nil => rfl
  | cons h0 hs ih =>
    have hid : recoverStep priceOf now s h0 = s :=
      recoverStep_skip priceOf now s h0 (hall h0 (List.mem_cons_self h0 hs))
    show recoverPositions priceOf now hs (recoverStep priceOf now s h0) = s
    rw [hid]
    exact ih (fun h hm => hall h (List.mem_cons_of_mem h0 hm))

/-- A recovery step preserves uniqueness of position keys and of the
active ticker list. -/
theorem recoverStep_nodup (priceOf : String → Option ℚ) (now : Nat)
    (s : BotState) (h : Holding)
    (hpos : (s.positions.map Prod.fst).Nodup) (ht : s.tickers.Nodup) :
    ((recoverStep priceOf now s h).positions.map Prod.fst).Nodup ∧
    (recoverStep priceOf now s h).tickers.Nodup := by
  unfold recoverStep
  by_cases h1 : (lookupKey h.ticker s.positions).isSome = true
  · rw [if_pos h1]
    exact ⟨hpos, ht⟩
  · rw [if_neg h1]
    by_cases h2 : effectiveEntryPrice priceOf h ≤ 0
    · rw [if_pos h2]
      exact ⟨hpos, ht⟩
    · rw [if_neg h2]
      constructor
      · exact nodupKeys_setKey _ _ _ hpos
      · show (if h.ticker ∈ s.tickers then s.tickers
            else s.tickers ++ [h.ticker]).Nodup
        split
        · exact ht
        · rename_i hmem
          simp [List.nodup_append, ht, hmem]

/-- Recovery preserves uniqueness of position keys and of the active
ticker list. -/
theorem recover_nodup (priceOf : String → Option ℚ) (now : Nat)
    (hs : List Holding) (s : BotState)
    (hpos : (s.positions.map Prod.fst).Nodup) (ht : s.tickers.Nodup) :
    ((recoverPositions priceOf now hs s).positions.map Prod.fst).Nodup ∧
    (recoverPositions priceOf now hs s).tickers.Nodup := by
  induction hs generalizing s with
  | nil => exact ⟨hpos, ht⟩
  | cons h0 hs ih =>
    have hstep := recoverStep_nodup priceOf now s h0 hpos ht
    exact ih _ hstep.1 hstep.2

/-- An untracked ticker all of whose holdings are unrecoverable is skipped
entirely by a recovery run. -/
theorem recover_skip_frame (priceOf : String → Option ℚ) (now : Nat)
    (hs : List Holding) (s : BotState) (t : String)
    (hall : ∀ h ∈ hs, h.ticker = t → effectiveEntryPrice priceOf h ≤ 0)
    (hnone : lookupKey t s.positions = none) :
    lookupKey t (recoverPositions priceOf now hs s).positions = none ∧
    (t ∈ (recoverPositions priceOf now hs s).tickers ↔ t ∈ s.tickers) := by
  induction hs generalizing s with
  | nil => exact ⟨hnone, Iff.rfl⟩
  | cons h0 hs ih =>
    show lookupKey t (recoverPositions priceOf now hs
        (recoverStep priceOf now s h0)).positions = none ∧
      (t ∈ (recoverPositions priceOf now hs
        (recoverStep priceOf now s h0)).tickers ↔ t ∈ s.tickers)
    by_cases he : h0.ticker = t
    · have hid : recoverStep priceOf now s h0 = s := by
        apply recoverStep_skip
        exact Or.inr (hall h0 (List.mem_cons_self h0 hs) he)
      rw [hid]
      exact ih s (fun h hm hht => hall h (List.mem_cons_of_mem h0 hm) hht) hnone
    · have hloc := recoverStep_locality priceOf now s h0 t
        (fun hh => he hh.symm)
      have hrest := ih (recoverStep priceOf now s h0)
        (fun h hm hht => hall h (List.mem_cons_of_mem h0 hm) hht)
        (hloc.1.trans hnone)
      exact ⟨hrest.1, hrest.2.trans hloc.2⟩

/-- Registering batch instruments never touches the binding of a ticker
absent from the batch. -/
theorem lookupKey_foldl_setKey_ne {α : Type} (batch : List String) (v : α)
    (wl : List (String × α)) (t : String) (ht : t ∉ batch) :
    lookupKey t (batch.foldl (fun acc x => setKey x v acc) wl) =
      lookupKey t wl := by
  induction batch generalizing wl with
  | nil => rfl
  | cons b bs ih =>
    have hne : t ≠ b := fun hh => ht (hh ▸ List.mem_cons_self b bs)
    rw [List.foldl_cons, ih _ (fun hm => ht (List.mem_cons_of_mem b hm)),
      lookupKey_setKey_ne hne]

/-- Registering batch instruments preserves key uniqueness. -/
theorem nodupKeys_foldl_setKey {α : Type} (batch : List String) (v : α)
    (wl : List (String × α)) (h : (wl.map Prod.fst).Nodup) :
    ((batch.foldl (fun acc x => setKey x v acc) wl).map Prod.fst).Nodup := by
  induction batch generalizing wl with
  | nil => exact h
  | cons b bs ih => exact ih _ (nodupKeys_setKey b v wl h)

/-- A key-preserving map leaves the key list unchanged. -/
theorem keys_map_keyfix {α : Type} (f : (String × α) → (String × α))
    (hf : ∀ p, (f p).1 = p.1) (l : List (String × α)) :
    (l.map f).map Prod.fst = l.map Prod.fst := by
  induction l with
  | nil => rfl
  | cons p ps ih => simp [hf, ih]

/-- Dictionary lookup through a key-preserving map. -/
theorem lookupKey_map_keyfix {α : Type} (f : (String × α) → (String × α))
    (hf : ∀ p, (f p).1 = p.1) (t : String) (e : α)
    (l : List (String × α)) (hl : lookupKey t l = some e) :
    lookupKey t (l.map f) = some (f (t, e)).2 := by
  induction l with
  | nil => simp [lookupKey] at hl
  | cons p ps ih =>
    by_cases hp : p.1 = t
    · rw [lookupKey, if_pos hp] at hl
      injection hl with hl
      have hpe : p = (t, e) := Prod.ext_iff.mpr ⟨hp, hl⟩
      rw [List.map_cons, lookupKey, hf p, if_pos hp, hpe]
    · rw [lookupKey, if_neg hp] at hl
      rw [List.map_cons, lookupKey, hf p, if_neg hp]
      exact ih hl

/-- Dictionary lookup through a filter over a duplicate-free table: the
found entry survives exactly when the filter keeps it. -/
theorem lookupKey_filter_nodup {α : Type} (g : (String × α) → Bool)
    (t : String) (e : α) (l : List (String × α))
    (hnd : (l.map Prod.fst).Nodup) (hl : lookupKey t l = some e) :
    lookupKey t (l.filter g) = if g (t, e) then some e else none := by
  induction l with
  | nil => simp [lookupKey] at hl
  | cons p ps ih =>
    rw [List.map_cons, List.nodup_cons] at hnd
    by_cases hp : p.1 = t
    · rw [lookupKey, if_pos hp] at hl
      injection hl with hl
      have hpe : p = (t, e) := Prod.ext_iff.mpr ⟨hp, hl⟩
      subst hpe
      rw [List.filter_cons]
      cases hg : g (t, e) with
      | true => simp [lookupKey]
      | false =>
        rw [if_neg Bool.false_ne_true, if_neg Bool.false_ne_true,
          lookupKey_eq_none_iff]
        intro hmem
        rcases List.mem_map.mp hmem with ⟨q, hq, hqt⟩
        apply hnd.1
        show t ∈ List.map Prod.fst ps
        rw [← hqt]
        show q.1 ∈ List.map Prod.fst ps
        exact List.mem_map_of_mem Prod.fst (List.mem_of_mem_filter hq)
    · rw [lookupKey, if_neg hp] at hl
      rw [List.filter_cons]
      cases hg : g p with
      | true =>
        rw [if_pos rfl, lookupKey, if_neg hp]
        exact ih hnd.2 hl
      | false =>
        rw [if_neg Bool.false_ne_true]
        exact ih hnd.2 hl

/-! ## Claim theorems -/

/-- C5: for every open Position, exit evaluation fires on the first
matching rule in the fixed order target-profit (reason class Profit), then
stop-loss (reason class Loss), then band-exhaustion, and no exit fires
when none match; in particular when both the target-profit and the
band-exhaustion conditions hold, the reason is the target-profit one. -/
theorem exit_rule_priority (cfg : Config) (r : ℚ) (dfLen : Option Nat)
    (featBB : Option ℚ) :
    (cfg.targetProfit ≤ r →
      exitDecision cfg r dfLen featBB = some .targetProfit ∧
      ExitReason.containsProfit .targetProfit = true) ∧
    (r < cfg.targetProfit → r ≤ -cfg.stopLoss →
      exitDecision cfg r dfLen featBB = some .stopLoss ∧
      ExitReason.containsProfit .stopLoss = false) ∧
    (r < cfg.targetProfit → -cfg.stopLoss < r →
      20 ≤ dfLen.getD 0 → 95/100 < featBB.getD 0 →
      exitDecision cfg r dfLen featBB = some .bollingerUpper) ∧
    (r < cfg.targetProfit → -cfg.stopLoss < r →
      ¬(20 ≤ dfLen.getD 0 ∧ 95/100 < featBB.getD 0) →
      exitDecision cfg r dfLen featBB = none) := by
  refine ⟨fun h1 => ?_, fun h1 h2 => ?_, fun h1 h2 h3 h4 => ?_, fun h1 h2 h3 => ?_⟩
  · exact ⟨by simp [exitDecision, h1], rfl⟩
  · exact ⟨by simp [exitDecision, not_le.mpr h1, h2], rfl⟩
  · simp [exitDecision, not_le.mpr h1, not_le.mpr h2, h3, h4]
  · simp [exitDecision, not_le.mpr h1, not_le.mpr h2, h3]

/-- Witness for C5 at a concrete input: profit rate 3 percent against a 2
percent target fires the target-profit exit even though the
band-exhaustion condition (`bb_position` 0.96) holds on the same tick. -/
theorem exit_rule_priority_witness :
    exitDecision ⟨10000, 2/100, 2/100, 15/1000, 7/10, 10⟩ (3/100) (some 30)
      (some (96/100)) = some .targetProfit :=
  ((exit_rule_priority ⟨10000, 2/100, 2/100, 15/1000, 7/10, 10⟩ (3/100)
    (some 30) (some (96/100))).1 (by norm_num)).1

/-- C1: for a cooldown-gated instrument whose entry evaluation reaches the
gate, the directional release rule holds: with a Profit-class reason the
gate stays closed (state unchanged, nothing bought, cooldown kept) exactly
while the current price is at least `exit_price * (1 - rebuy_gap)` and
releases (cooldown deleted) when the price is below it; with a Loss-class
reason the gate stays closed while the price is at most
`exit_price * (1 + rebuy_gap)` and releases when the price is above it. -/
theorem cooldown_gate_directional (cfg : Config) (ctx : EntryCtx)
    (ticker : String) (s : BotState) (feats : Features) (ep price : ℚ)
    (r : ExitReason)
    (hdf : 30 ≤ ctx.dfLen.getD 0)
    (hf : ctx.features = some feats)
    (hpos : lookupKey ticker s.positions = none)
    (hcd : lookupKey ticker s.cooldown = some (.entry ep r))
    (hpr : ctx.currentPrice = some price) :
    (r.containsProfit = true →
      (ep * (1 - cfg.rebuyThreshold) ≤ price →
        checkEntryConditions cfg ctx ticker s = ⟨s, false, false⟩) ∧
      (price < ep * (1 - cfg.rebuyThreshold) →
        (checkEntryConditions cfg ctx ticker s).released = true ∧
        lookupKey ticker
          (checkEntryConditions cfg ctx ticker s).state.cooldown = none)) ∧
    (r.containsProfit = false →
      (price ≤ ep * (1 + cfg.rebuyThreshold) →
        checkEntryConditions cfg ctx ticker s = ⟨s, false, false⟩) ∧
      (ep * (1 + cfg.rebuyThreshold) < price →
        (checkEntryConditions cfg ctx ticker s).released = true ∧
        lookupKey ticker
          (checkEntryConditions cfg ctx ticker s).state.cooldown = none)) := by
  have hrel : lookupKey ticker
      (entrySignalPhase cfg ctx ticker feats true (releaseCooldown ticker s)).state.cooldown
        = none := by
    rw [entrySignalPhase_cooldown_eq]
    exact lookupKey_delKey_self ticker s.cooldown
  constructor
  · intro hP
    refine ⟨fun hclosed => ?_, fun hopen => ?_⟩
    · exact checkEntry_gate_closed cfg ctx ticker s feats ep price r hdf hf
        hpos hcd hpr (by rw [hP]; exact hclosed)
    · rw [checkEntry_gate_release cfg ctx ticker s feats ep price r hdf hf
        hpos hcd hpr (by rw [hP]; exact hopen)]
      exact ⟨entrySignalPhase_released_eq cfg ctx ticker feats true _, hrel⟩
  · intro hP
    refine ⟨fun hclosed => ?_, fun hopen => ?_⟩
    · exact checkEntry_gate_closed cfg ctx ticker s feats ep price r hdf hf
        hpos hcd hpr (by rw [hP]; exact hclosed)
    · rw [checkEntry_gate_release cfg ctx ticker s feats ep price r hdf hf
        hpos hcd hpr (by rw [hP]; exact hopen)]
      exact ⟨entrySignalPhase_released_eq cfg ctx ticker feats true _, hrel⟩

/-- Witness for C1, covering the four concrete instances named in the
claim: with exit price 100 and rebuy gap 0.015, a Profit-class cooldown
stays closed at price 99 and releases at 98.4, and a Loss-class cooldown
stays closed at 101 and releases at 102. -/
theorem cooldown_gate_directional_witness :
    (checkEntryConditions defaultConfig (neutralEntryCtxAt 99) "BTC"
      (cooldownOnlyState 100 .targetProfit) =
      ⟨cooldownOnlyState 100 .targetProfit, false, false⟩) ∧
    ((checkEntryConditions defaultConfig (neutralEntryCtxAt (984/10)) "BTC"
      (cooldownOnlyState 100 .targetProfit)).released = true) ∧
    (checkEntryConditions defaultConfig (neutralEntryCtxAt 101) "BTC"
      (cooldownOnlyState 100 .stopLoss) =
      ⟨cooldownOnlyState 100 .stopLoss, false, false⟩) ∧
    ((checkEntryConditions defaultConfig (neutralEntryCtxAt 102) "BTC"
      (cooldownOnlyState 100 .stopLoss)).released = true) :=
  ⟨((cooldown_gate_directional defaultConfig (neutralEntryCtxAt 99) "BTC"
      (cooldownOnlyState 100 .targetProfit) ⟨50, 1/2⟩ 100 99 .targetProfit
      (by simp [neutralEntryCtxAt]) rfl rfl
      (by simp [cooldownOnlyState, lookupKey]) rfl).1 rfl).1
      (by simp [defaultConfig]; norm_num),
   (((cooldown_gate_directional defaultConfig (neutralEntryCtxAt (984/10)) "BTC"
      (cooldownOnlyState 100 .targetProfit) ⟨50, 1/2⟩ 100 (984/10) .targetProfit
      (by simp [neutralEntryCtxAt]) rfl rfl
      (by simp [cooldownOnlyState, lookupKey]) rfl).1 rfl).2
      (by simp [defaultConfig]; norm_num)).1,
   ((cooldown_gate_directional defaultConfig (neutralEntryCtxAt 101) "BTC"
      (cooldownOnlyState 100 .stopLoss) ⟨50, 1/2⟩ 100 101 .stopLoss
      (by simp [neutralEntryCtxAt]) rfl rfl
      (by simp [cooldownOnlyState, lookupKey]) rfl).2 rfl).1
      (by simp [defaultConfig]; norm_num),
   (((cooldown_gate_directional defaultConfig (neutralEntryCtxAt 102) "BTC"
      (cooldownOnlyState 100 .stopLoss) ⟨50, 1/2⟩ 100 102 .stopLoss
      (by simp [neutralEntryCtxAt]) rfl rfl
      (by simp [cooldownOnlyState, lookupKey]) rfl).2 rfl).2
      (by simp [defaultConfig]; norm_num)).1⟩

/-- C7 counterexample: at a concrete input (Profit cooldown at exit 100,
price 98, bullish signals) the gate releases and a buy is executed within
the same entry evaluation, refuting that ordinary entry evaluation resumes
only at the next tick. -/
theorem release_then_buy_counterexample :
    (checkEntryConditions defaultConfig (bullishEntryCtxAt 98) "BTC"
      (cooldownOnlyState 100 .targetProfit)).released = true ∧
    (checkEntryConditions defaultConfig (bullishEntryCtxAt 98) "BTC"
      (cooldownOnlyState 100 .targetProfit)).bought = true := by
  have h := checkEntry_gate_release defaultConfig (bullishEntryCtxAt 98) "BTC"
    (cooldownOnlyState 100 .targetProfit) ⟨25, 1/2⟩ 100 98 .targetProfit
    (by simp [bullishEntryCtxAt]) rfl rfl
    (by simp [cooldownOnlyState, lookupKey]) rfl
    (by norm_num [ExitReason.containsProfit, defaultConfig])
  rw [h]
  refine ⟨entrySignalPhase_released_eq _ _ _ _ _ _, ?_⟩
  rw [entrySignalPhase_bought_eq, executeBuy_snd_eq]
  norm_num [bullishEntryCtxAt, defaultConfig]

/-- C7 amended: when the cooldown gate releases during an entry
evaluation, the CooldownEntry is deleted and the instrument is re-admitted
to the active ticker list, but entry evaluation continues within the same
call: a buy is executed in that same evaluation exactly when the AI gate,
the oversold gate and the buy preconditions (minimum notional, price
available, order accepted) all pass. -/
theorem cooldown_release_continues_evaluation (cfg : Config)
    (ctx : EntryCtx) (ticker : String) (s : BotState) (feats : Features)
    (ep price : ℚ) (r : ExitReason)
    (hdf : 30 ≤ ctx.dfLen.getD 0)
    (hf : ctx.features = some feats)
    (hpos : lookupKey ticker s.positions = none)
    (hcd : lookupKey ticker s.cooldown = some (.entry ep r))
    (hpr : ctx.currentPrice = some price)
    (hrel : if r.containsProfit then price < ep * (1 - cfg.rebuyThreshold)
            else ep * (1 + cfg.rebuyThreshold) < price) :
    (checkEntryConditions cfg ctx ticker s).released = true ∧
    lookupKey ticker
      (checkEntryConditions cfg ctx ticker s).state.cooldown = none ∧
    ticker ∈ (checkEntryConditions cfg ctx ticker s).state.tickers ∧
    (checkEntryConditions cfg ctx ticker s).bought =
      ((decide (ctx.prediction = 1) &&
        decide (cfg.confidenceThreshold < ctx.confidence)) &&
       (decide (feats.rsi < 30) || decide (feats.bbPosition < 1/5)) &&
       (decide (¬ cfg.tradeAmount < 5000) && ctx.buyOrderOk)) := by
  rw [checkEntry_gate_release cfg ctx ticker s feats ep price r hdf hf hpos
    hcd hpr hrel]
  refine ⟨entrySignalPhase_released_eq _ _ _ _ _ _, ?_, ?_, ?_⟩
  · rw [entrySignalPhase_cooldown_eq]
    exact lookupKey_delKey_self ticker s.cooldown
  · rw [entrySignalPhase_tickers_eq]
    exact mem_releaseCooldown_tickers ticker s
  · rw [entrySignalPhase_bought_eq, executeBuy_snd_eq, hpr]
    simp

/-- Witness for the amended C7: a Loss cooldown at exit 100 releases at
price 102 and the same evaluation buys, since all signal gates pass. -/
theorem cooldown_release_continues_evaluation_witness :
    (checkEntryConditions defaultConfig (bullishEntryCtxAt 102) "BTC"
      (cooldownOnlyState 100 .stopLoss)).released = true ∧
    (checkEntryConditions defaultConfig (bullishEntryCtxAt 102) "BTC"
      (cooldownOnlyState 100 .stopLoss)).bought = true := by
  have h := cooldown_release_continues_evaluation defaultConfig
    (bullishEntryCtxAt 102) "BTC" (cooldownOnlyState 100 .stopLoss)
    ⟨25, 1/2⟩ 100 102 .stopLoss
    (by simp [bullishEntryCtxAt]) rfl rfl
    (by simp [cooldownOnlyState, lookupKey]) rfl
    (by norm_num [ExitReason.containsProfit, defaultConfig])
  refine ⟨h.1, ?_⟩
  rw [h.2.2.2]
  norm_num [bullishEntryCtxAt, defaultConfig]

/-- C2 counterexample: the band-exhaustion exit fires with reason
"Bollinger Band Upper"; after the sell the cooldown holds that reason, and
the gate then behaves opposite to the claimed Profit rule at exit price
100 with rebuy gap 0.015: it stays closed at price 98.4 (where the Profit
rule would release) and releases at price 102 (where the Profit rule would
keep it closed). -/
theorem band_exhaustion_profit_rule_counterexample :
    exitDecision defaultConfig (5/1000) (some 30) (some (96/100)) =
      some .bollingerUpper ∧
    executeSell sellCtxOk "BTC" 100 .bollingerUpper positionedState =
      (⟨[], [], [("BTC", CooldownVal.entry 100 .bollingerUpper)], 1, 1, [], 5⟩,
        .sold) ∧
    checkEntryConditions defaultConfig (neutralEntryCtxAt (984/10)) "BTC"
      ⟨[], [], [("BTC", CooldownVal.entry 100 .bollingerUpper)], 1, 1, [], 5⟩ =
      ⟨⟨[], [], [("BTC", CooldownVal.entry 100 .bollingerUpper)], 1, 1, [], 5⟩,
        false, false⟩ ∧
    (checkEntryConditions defaultConfig (neutralEntryCtxAt 102) "BTC"
      ⟨[], [], [("BTC", CooldownVal.entry 100 .bollingerUpper)], 1, 1, [], 5⟩).released
      = true := by
  refine ⟨by norm_num [exitDecision, defaultConfig], ?_, ?_, ?_⟩
  · norm_num [executeSell, sellCtxOk, positionedState, btcPosition, lookupKey,
      syncedPosition, syncedState, effectiveBid, soldState, updateTradeExit,
      setKey, delKey, List.find?]
  · exact checkEntry_gate_closed defaultConfig (neutralEntryCtxAt (984/10))
      "BTC" ⟨[], [], [("BTC", CooldownVal.entry 100 .bollingerUpper)], 1, 1, [], 5⟩
      ⟨50, 1/2⟩ 100 (984/10) .bollingerUpper
      (by simp [neutralEntryCtxAt]) rfl rfl (by simp [lookupKey]) rfl
      (by norm_num [ExitReason.containsProfit, defaultConfig])
  · rw [checkEntry_gate_release defaultConfig (neutralEntryCtxAt 102)
      "BTC" ⟨[], [], [("BTC", CooldownVal.entry 100 .bollingerUpper)], 1, 1, [], 5⟩
      ⟨50, 1/2⟩ 100 102 .bollingerUpper
      (by simp [neutralEntryCtxAt]) rfl rfl (by simp [lookupKey]) rfl
      (by norm_num [ExitReason.containsProfit, defaultConfig])]
    exact entrySignalPhase_released_eq _ _ _ _ _ _

/-- C2 amended: a band-exhaustion exit creates a CooldownEntry carrying
the reason "Bollinger Band Upper", which does not contain "Profit", so
the subsequent cooldown gate for the instrument follows the LOSS rule: it
stays closed while the current price is at most
`exit_price * (1 + rebuy_gap)` and releases when the price rises above
that threshold. -/
theorem band_exhaustion_follows_loss_rule (ctx : SellCtx) (ticker : String)
    (exitP : ℚ) (s s' : BotState)
    (hsell : executeSell ctx ticker exitP .bollingerUpper s = (s', .sold)) :
    lookupKey ticker s'.cooldown = some (.entry exitP .bollingerUpper) ∧
    ExitReason.containsProfit .bollingerUpper = false ∧
    ∀ (cfg : Config) (ctx2 : EntryCtx) (feats : Features) (price : ℚ),
      30 ≤ ctx2.dfLen.getD 0 → ctx2.features = some feats →
      ctx2.currentPrice = some price →
      (price ≤ exitP * (1 + cfg.rebuyThreshold) →
        checkEntryConditions cfg ctx2 ticker s' = ⟨s', false, false⟩) ∧
      (exitP * (1 + cfg.rebuyThreshold) < price →
        (checkEntryConditions cfg ctx2 ticker s').released = true) := by
  obtain ⟨pos, amt, hpos, hh, hok, hs'⟩ := executeSell_sold_eq _ _ _ _ _ _ hsell
  subst hs'
  have hcd : lookupKey ticker
      (soldState ticker exitP .bollingerUpper (syncedPosition pos amt)
        (syncedState ticker pos amt s)).cooldown =
      some (.entry exitP .bollingerUpper) :=
    lookupKey_setKey_self ticker _ _
  have hposnone : lookupKey ticker
      (soldState ticker exitP .bollingerUpper (syncedPosition pos amt)
        (syncedState ticker pos amt s)).positions = none :=
    lookupKey_delKey_self ticker _
  refine ⟨hcd, rfl, fun cfg ctx2 feats price hdf hf hpr =>
    ⟨fun hcl => ?_, fun hrel => ?_⟩⟩
  · exact checkEntry_gate_closed cfg ctx2 ticker _ feats exitP price
      .bollingerUpper hdf hf hposnone hcd hpr hcl
  · rw [checkEntry_gate_release cfg ctx2 ticker _ feats exitP price
      .bollingerUpper hdf hf hposnone hcd hpr hrel]
    exact entrySignalPhase_released_eq _ _ _ _ _ _

/-- Witness for the amended C2: after the concrete band-exhaustion sell at
exit price 100, the gate stays closed at price 101 (Loss rule). -/
theorem band_exhaustion_follows_loss_rule_witness :
    checkEntryConditions defaultConfig (neutralEntryCtxAt 101) "BTC"
      ⟨[], [], [("BTC", CooldownVal.entry 100 .bollingerUpper)], 1, 1, [], 5⟩ =
      ⟨⟨[], [], [("BTC", CooldownVal.entry 100 .bollingerUpper)], 1, 1, [], 5⟩,
        false, false⟩ :=
  ((band_exhaustion_follows_loss_rule sellCtxOk "BTC" 100 positionedState
      ⟨[], [], [("BTC", CooldownVal.entry 100 .bollingerUpper)], 1, 1, [], 5⟩
      (by norm_num [executeSell, sellCtxOk, positionedState, btcPosition,
        lookupKey, syncedPosition, syncedState, effectiveBid, soldState,
        updateTradeExit, setKey, delKey, List.find?])).2.2
    defaultConfig (neutralEntryCtxAt 101) ⟨50, 1/2⟩ 101
    (by simp [neutralEntryCtxAt]) rfl rfl).1
    (by norm_num [defaultConfig])

/-- C4: after a sell the exchange accepted, the close is atomic: the
Position is gone from the position table, a CooldownEntry recording the
exit price and reason exists, and the instrument is no longer in the
active ticker list. -/
theorem atomic_close (ctx : SellCtx) (ticker : String) (exitP : ℚ)
    (reason : ExitReason) (s s' : BotState)
    (hnd : s.tickers.Nodup)
    (h : executeSell ctx ticker exitP reason s = (s', .sold)) :
    lookupKey ticker s'.positions = none ∧
    lookupKey ticker s'.cooldown = some (.entry exitP reason) ∧
    ticker ∉ s'.tickers := by
  obtain ⟨pos, amt, hpos, hh, hok, hs'⟩ := executeSell_sold_eq _ _ _ _ _ _ h
  subst hs'
  refine ⟨lookupKey_delKey_self ticker _, lookupKey_setKey_self ticker _ _, ?_⟩
  have ht : (syncedState ticker pos amt s).tickers = s.tickers :=
    (syncedState_fields ticker pos amt s).1
  show ticker ∉ (syncedState ticker pos amt s).tickers.erase ticker
  rw [ht]
  exact hnd.not_mem_erase

/-- Witness for C4 at a concrete accepted sell. -/
theorem atomic_close_witness :
    lookupKey "BTC"
      (⟨[], [], [("BTC", CooldownVal.entry 100 .targetProfit)], 1, 1, [], 5⟩
        : BotState).positions = none ∧
    lookupKey "BTC"
      (⟨[], [], [("BTC", CooldownVal.entry 100 .targetProfit)], 1, 1, [], 5⟩
        : BotState).cooldown = some (.entry 100 .targetProfit) ∧
    "BTC" ∉
      (⟨[], [], [("BTC", CooldownVal.entry 100 .targetProfit)], 1, 1, [], 5⟩
        : BotState).tickers :=
  atomic_close sellCtxOk "BTC" 100 .targetProfit positionedState
    ⟨[], [], [("BTC", CooldownVal.entry 100 .targetProfit)], 1, 1, [], 5⟩
    (by simp [positionedState])
    (by norm_num [executeSell, sellCtxOk, positionedState, btcPosition,
      lookupKey, syncedPosition, syncedState, effectiveBid, soldState,
      updateTradeExit, setKey, delKey, List.find?])

/-- C8: a rejected market buy creates no Position and no ledger entry and
leaves the state exactly as it was; a rejected market sell leaves the
Position in the table, creates no CooldownEntry, keeps the active ticker
list, the session counters and the ledger unchanged, and touches no other
instrument's position — the state equals the one from just before the
order attempt. -/
theorem order_failure_frame (cfg : Config) (ctxB : EntryCtx)
    (tickerB : String) (confB : ℚ) (sB : BotState)
    (ctxS : SellCtx) (tickerS : String) (exitP : ℚ) (reason : ExitReason)
    (sS sS' : BotState)
    (hB : ctxB.buyOrderOk = false)
    (hS : executeSell ctxS tickerS exitP reason sS = (sS', .orderFailed)) :
    executeBuy cfg ctxB tickerB confB sB = (sB, false) ∧
    (lookupKey tickerS sS'.positions).isSome = true ∧
    sS'.cooldown = sS.cooldown ∧
    sS'.tickers = sS.tickers ∧
    sS'.sessionTrades = sS.sessionTrades ∧
    sS'.sessionWins = sS.sessionWins ∧
    sS'.ledger = sS.ledger ∧
    (∀ t, t ≠ tickerS → lookupKey t sS'.positions = lookupKey t sS.positions) := by
  obtain ⟨pos, amt, hpos, hh, hok, hs'⟩ := executeSell_orderFailed_eq _ _ _ _ _ _ hS
  subst hs'
  refine ⟨?_, ?_, (syncedState_fields _ _ _ _).2.1,
    (syncedState_fields _ _ _ _).1,
    (syncedState_fields _ _ _ _).2.2.1,
    (syncedState_fields _ _ _ _).2.2.2.1,
    (syncedState_fields _ _ _ _).2.2.2.2.1,
    fun t ht => syncedState_lookup_ne tickerS t pos amt sS ht⟩
  · by_cases hta : cfg.tradeAmount < 5000
    · simp [executeBuy, hta]
    · cases hp : ctxB.currentPrice with
      | none => simp [executeBuy, hta, hp]
      | some price => simp [executeBuy, hta, hp, hB]
  · rw [syncedState_lookup_self tickerS pos amt sS hpos]
    rfl

/-- Witness for C8: a concrete rejected buy and a concrete rejected sell
both leave the state untouched. -/
theorem order_failure_frame_witness :
    executeBuy defaultConfig failedBuyCtx "ETH" (8/10) positionedState =
      (positionedState, false) ∧
    (lookupKey "BTC" positionedState.positions).isSome = true ∧
    positionedState.cooldown = positionedState.cooldown ∧
    positionedState.tickers = positionedState.tickers := by
  have h := order_failure_frame defaultConfig failedBuyCtx "ETH" (8/10)
    positionedState sellCtxRejected "BTC" 100 .targetProfit positionedState
    positionedState rfl
    (by norm_num [executeSell, sellCtxRejected, positionedState, btcPosition,
      lookupKey, syncedPosition, syncedState, effectiveBid])
  exact ⟨h.1, h.2.1, h.2.2.1, h.2.2.2.1⟩

/-- C10: on a successful sell whose profit rate lies in the interval
(0, 0.001], the in-memory session win counter increments (it counts any
strictly positive rate) while the ledger marks the closed trade as not
profitable (it requires the rate to exceed the 0.001 fee allowance), so
the ledger win rate and the session win rate over the same trades
diverge. -/
theorem session_ledger_divergence (ctx : SellCtx) (ticker : String)
    (exitP : ℚ) (reason : ExitReason) (s s' : BotState) (pos : Position)
    (i : Nat) (row : TradeRecord)
    (hpos : lookupKey ticker s.positions = some pos)
    (htid : pos.tradeId = .db i)
    (hled : s.ledger = [row])
    (hrid : row.id = i)
    (hre : row.entryPrice = pos.entryPrice)
    (hr0 : 0 < (exitP - pos.entryPrice) / pos.entryPrice)
    (hr1 : (exitP - pos.entryPrice) / pos.entryPrice ≤ 1/1000)
    (hrun : executeSell ctx ticker exitP reason s = (s', .sold)) :
    s'.sessionTrades = s.sessionTrades + 1 ∧
    s'.sessionWins = s.sessionWins + 1 ∧
    s'.ledger = [{ row with
                   exitPrice := some exitP,
                   profitRate := some ((exitP - row.entryPrice) / row.entryPrice),
                   isProfitable := some false,
                   statusClosed := true }] := by
  obtain ⟨pos2, amt, hpos2, hh, hok, hs'⟩ := executeSell_sold_eq _ _ _ _ _ _ hrun
  rw [hpos] at hpos2
  have hpe : pos = pos2 := by injection hpos2
  subst hpe
  subst hs'
  have hfields := syncedState_fields ticker pos amt s
  have hpfields := syncedPosition_fields pos amt
  have hdec : decide ((exitP - row.entryPrice) / row.entryPrice > 1/1000)
      = false := by
    rw [hre]
    exact decide_eq_false (not_lt.mpr hr1)
  refine ⟨?_, ?_, ?_⟩
  · show (syncedState ticker pos amt s).sessionTrades + 1 = s.sessionTrades + 1
    rw [hfields.2.2.1]
  · show (syncedState ticker pos amt s).sessionWins +
      (if 0 < (exitP - (syncedPosition pos amt).entryPrice) /
        (syncedPosition pos amt).entryPrice then 1 else 0) = s.sessionWins + 1
    rw [hfields.2.2.2.1, hpfields.2.2.1, if_pos hr0]
  · show updateTradeExit (syncedPosition pos amt).tradeId exitP
      (syncedState ticker pos amt s).ledger = _
    rw [hpfields.2.1, htid, hfields.2.2.2.2.1, hled,
      updateTradeExit_single i exitP row hrid, hdec]

/-- Witness for C10: a sell at 1000.5 against entry 1000 (profit rate
0.0005) counts as a session win but is recorded as not profitable. -/
theorem session_ledger_divergence_witness :
    (⟨[], [], [("BTC", CooldownVal.entry (2001/2) .targetProfit)], 1, 1,
      [⟨1, "BTC", 1000, some (2001/2), some (1/2000), some false, 7/10, true⟩],
      2⟩ : BotState).sessionWins = (ledgerState).sessionWins + 1 ∧
    (⟨[], [], [("BTC", CooldownVal.entry (2001/2) .targetProfit)], 1, 1,
      [⟨1, "BTC", 1000, some (2001/2), some (1/2000), some false, 7/10, true⟩],
      2⟩ : BotState).ledger =
      [{ openRec with
         exitPrice := some (2001/2),
         profitRate := some (((2001/2) - openRec.entryPrice) / openRec.entryPrice),
         isProfitable := some false, statusClosed := true }] := by
  have h := session_ledger_divergence sellCtxLedger "BTC" (2001/2)
    .targetProfit ledgerState
    ⟨[], [], [("BTC", CooldownVal.entry (2001/2) .targetProfit)], 1, 1,
      [⟨1, "BTC", 1000, some (2001/2), some (1/2000), some false, 7/10, true⟩],
      2⟩ ledgerPos 1 openRec
    (by simp [ledgerState, ledgerPos, lookupKey]) rfl rfl rfl rfl
    (by norm_num [ledgerPos]) (by norm_num [ledgerPos])
    (by norm_num [executeSell, sellCtxLedger, ledgerState, ledgerPos, openRec,
      lookupKey, syncedPosition, syncedState, effectiveBid, soldState,
      updateTradeExit, setKey, delKey, List.find?])
  exact ⟨h.2.1, h.2.2⟩

/-- C9: drift sync removes exactly the tracked positions whose instrument
is absent from the live holdings, removes those instruments from the
active ticker list, and changes nothing else: positions and watchlist
membership of still-held instruments, the cooldown table, the ledger and
the session counters are all unchanged, and watchlist membership of
instruments that were never tracked is untouched. -/
theorem drift_sync_frame (held : List String) (s : BotState)
    (hnd : s.tickers.Nodup) :
    (∀ t, t ∈ held →
      lookupKey t (syncPositions held s).positions = lookupKey t s.positions) ∧
    (∀ t, t ∉ held → lookupKey t (syncPositions held s).positions = none) ∧
    (syncPositions held s).cooldown = s.cooldown ∧
    (syncPositions held s).ledger = s.ledger ∧
    (syncPositions held s).sessionTrades = s.sessionTrades ∧
    (syncPositions held s).sessionWins = s.sessionWins ∧
    (∀ t, t ∈ held →
      (t ∈ (syncPositions held s).tickers ↔ t ∈ s.tickers)) ∧
    (∀ t, t ∉ held → lookupKey t s.positions = none →
      (t ∈ (syncPositions held s).tickers ↔ t ∈ s.tickers)) ∧
    (∀ t, t ∉ held → (lookupKey t s.positions).isSome = true →
      t ∉ (syncPositions held s).tickers) := by
  refine ⟨?_, ?_, rfl, rfl, rfl, rfl, ?_, ?_, ?_⟩
  · intro t ht
    have hk := lookupKey_filter_key (fun x => decide (x ∈ held)) t s.positions
    rw [if_pos (decide_eq_true ht)] at hk
    exact hk
  · intro t ht
    have hk := lookupKey_filter_key (fun x => decide (x ∈ held)) t s.positions
    rw [if_neg (fun hc => ht (of_decide_eq_true hc))] at hk
    exact hk
  · intro t ht
    apply mem_foldl_erase_iff
    intro hmem
    exact (of_decide_eq_true (List.mem_filter.mp hmem).2) ht
  · intro t ht hnone
    apply mem_foldl_erase_iff
    intro hmem
    exact (lookupKey_eq_none_iff t s.positions).mp hnone
      (List.mem_filter.mp hmem).1
  · intro t ht hsome
    have hkeys : t ∈ s.positions.map Prod.fst := by
      by_contra hc
      rw [(lookupKey_eq_none_iff t s.positions).mpr hc] at hsome
      simp at hsome
    exact not_mem_foldl_erase _ s.tickers t
      (List.mem_filter.mpr ⟨hkeys, decide_eq_true ht⟩) hnd

/-- Witness for C9: with only BTC still held, the BTC position survives
untouched, the ETH position is dropped, the cooldown table is unchanged,
and ETH leaves the active ticker list. -/
theorem drift_sync_frame_witness :
    lookupKey "BTC" (syncPositions ["BTC"] driftState).positions =
      lookupKey "BTC" driftState.positions ∧
    lookupKey "ETH" (syncPositions ["BTC"] driftState).positions = none ∧
    (syncPositions ["BTC"] driftState).cooldown = driftState.cooldown ∧
    "ETH" ∉ (syncPositions ["BTC"] driftState).tickers := by
  have h := drift_sync_frame ["BTC"] driftState (by simp [driftState])
  exact ⟨h.1 "BTC" (by simp), h.2.1 "ETH" (by simp), h.2.2.1,
    h.2.2.2.2.2.2.2.2 "ETH" (by simp) (by simp [driftState, lookupKey])⟩

/-- C6: exchange recovery is idempotent: a second run over unchanged
holdings (at any later time) changes nothing; every held instrument with a
synthesizable entry price (or already tracked) ends with exactly one
Position (position keys and the ticker list stay duplicate-free), and a
held instrument whose average cost is non-positive and whose market price
is unavailable or non-positive is skipped entirely. -/
theorem recovery_idempotent (priceOf : String → Option ℚ) (n1 n2 : Nat)
    (holdings : List Holding) (s : BotState)
    (hpnd : (s.positions.map Prod.fst).Nodup)
    (htnd : s.tickers.Nodup) :
    recoverPositions priceOf n2 holdings
        (recoverPositions priceOf n1 holdings s)
      = recoverPositions priceOf n1 holdings s ∧
    (∀ h ∈ holdings, (0 < effectiveEntryPrice priceOf h ∨
        (lookupKey h.ticker s.positions).isSome = true) →
      (lookupKey h.ticker
        (recoverPositions priceOf n1 holdings s).positions).isSome = true) ∧
    ((recoverPositions priceOf n1 holdings s).positions.map Prod.fst).Nodup ∧
    (recoverPositions priceOf n1 holdings s).tickers.Nodup ∧
    (∀ t, (∀ h ∈ holdings, h.ticker = t →
        effectiveEntryPrice priceOf h ≤ 0) →
      lookupKey t s.positions = none →
      lookupKey t (recoverPositions priceOf n1 holdings s).positions = none ∧
      (t ∈ (recoverPositions priceOf n1 holdings s).tickers ↔
        t ∈ s.tickers)) := by
  refine ⟨?_, ?_, (recover_nodup priceOf n1 holdings s hpnd htnd).1,
    (recover_nodup priceOf n1 holdings s hpnd htnd).2,
    fun t hall hnone => recover_skip_frame priceOf n1 holdings s t hall hnone⟩
  · apply recover_fold_id
    intro h hm
    by_cases hp : 0 < effectiveEntryPrice priceOf h
    · exact Or.inl (recover_registers priceOf n1 holdings s h hm (Or.inl hp))
    · exact Or.inr (not_lt.mp hp)
  · exact fun h hm hc => recover_registers priceOf n1 holdings s h hm hc

/-- Witness for C6: recovering from a BTC holding (cost 0, live price 100)
and an XRP holding (cost 0, no price) twice equals running it once, and
the XRP holding is skipped entirely. -/
theorem recovery_idempotent_witness :
    recoverPositions priceTable 2 sampleHoldings
        (recoverPositions priceTable 1 sampleHoldings emptyState)
      = recoverPositions priceTable 1 sampleHoldings emptyState ∧
    lookupKey "XRP"
      (recoverPositions priceTable 1 sampleHoldings emptyState).positions
      = none := by
  have h := recovery_idempotent priceTable 1 2 sampleHoldings emptyState
    (by simp [emptyState]) (by simp [emptyState])
  refine ⟨h.1, (h.2.2.2.2 "XRP" ?_ (by simp [emptyState, lookupKey])).1⟩
  intro hh hm hteq
  simp only [sampleHoldings, List.mem_cons, List.not_mem_nil, or_false] at hm
  rcases hm with rfl | rfl
  · simp at hteq
  · simp [effectiveEntryPrice, priceTable]

/-- C3 counterexample (spec-modelled): an instrument watchlisted under
origin range (0,50) whose absence count had already reached 2 (kept alive
earlier only by the positioned-instrument protection) is evicted by a
batch of the different origin range (50,100), even though that batch never
had the opportunity to re-observe it. -/
theorem origin_isolation_counterexample :
    lookupKey "CTC" (reconcileBatch ["BTC"] (50, 100) []
      [("CTC", ⟨2, (0, 50)⟩)]) = none ∧
    ((0, 50) : Nat × Nat) ≠ (50, 100) := by
  constructor
  · simp [reconcileBatch, reconcileMark, reconcileKeep, setKey, delKey,
      lookupKey]
  · simp

/-- C3 corrected (spec-modelled): a batch whose origin range differs from
a watchlisted instrument's recorded origin range never changes that
instrument's absence count — the entry survives verbatim whenever its
count is below the eviction threshold or the instrument is positioned —
and such a batch can evict the instrument only when its count had already
reached 2 (under its own origin range) while it holds no Position. -/
theorem origin_range_isolation (batch : List String) (range : Nat × Nat)
    (positioned : List String) (wl : List (String × WatchlistEntry))
    (t : String) (e : WatchlistEntry)
    (hnd : (wl.map Prod.fst).Nodup)
    (hw : lookupKey t wl = some e)
    (hne : e.originRange ≠ range)
    (habs : t ∉ batch) :
    lookupKey t (reconcileBatch batch range positioned wl) =
      (if e.absenceCount < 2 ∨ t ∈ positioned then some e else none) := by
  unfold reconcileBatch
  have h1 : lookupKey t
      (batch.foldl (fun acc x => setKey x ⟨0, range⟩ acc) wl) = some e := by
    rw [lookupKey_foldl_setKey_ne batch _ wl t habs]
    exact hw
  have hnd1 := nodupKeys_foldl_setKey batch
    (⟨0, range⟩ : WatchlistEntry) wl hnd
  have hfix : ∀ p, (reconcileMark batch range p).1 = p.1 := by
    intro p
    unfold reconcileMark
    split <;> rfl
  have h2 := lookupKey_map_keyfix (reconcileMark batch range) hfix t e _ h1
  have hmark : reconcileMark batch range (t, e) = (t, e) := by
    unfold reconcileMark
    rw [if_neg]
    intro hc
    exact hne hc.1
  rw [hmark] at h2
  have hnd2 : (((batch.foldl (fun acc x => setKey x ⟨0, range⟩ acc) wl).map
      (reconcileMark batch range)).map Prod.fst).Nodup := by
    rw [keys_map_keyfix _ hfix]
    exact hnd1
  rw [lookupKey_filter_nodup (reconcileKeep positioned) t e _ hnd2 h2]
  have hiff : (reconcileKeep positioned (t, e) = true) ↔
      (e.absenceCount < 2 ∨ t ∈ positioned) := by
    simp [reconcileKeep]
  by_cases hc : e.absenceCount < 2 ∨ t ∈ positioned
  · rw [if_pos (hiff.mpr hc), if_pos hc]
  · rw [if_neg (fun hcon => hc (hiff.mp hcon)), if_neg hc]

/-- Witness for the amended C3: an instrument of origin range (0,50) with
absence count 1 survives a (50,100)-batch verbatim. -/
theorem origin_range_isolation_witness :
    lookupKey "XRP" (reconcileBatch ["BTC"] (50, 100) []
      [("XRP", ⟨1, (0, 50)⟩)]) = some ⟨1, (0, 50)⟩ := by
  have h := origin_range_isolation ["BTC"] (50, 100) []
    [("XRP", ⟨1, (0, 50)⟩)] "XRP" ⟨1, (0, 50)⟩
    (by simp) (by simp [lookupKey]) (by simp) (by simp)
  rw [h]
  simp

end AutoBot
